import Mathlib

/-!
Verification of the ESG-RiskLab core against its specification.

The development shallowly embeds the two core components of the repository:
the sentiment-delta engine (`src/ai_models/sentiment_analyzer.py`) and the
retrieval/answering engine (`src/ai_models/rag_engine.py`).  Pure Python
functions become Lean functions over `List Char` / `String`, floating point
scores become exact rationals, and the external collaborators (the FinBERT
classifier, the embedding model and the Chroma vector store) are abstracted
exactly at the interfaces the source code uses.
-/

namespace ESG

/-! ## Basic character-list utilities shared by both engines -/

/-- Python `str.strip()`: drop leading and trailing whitespace. -/
def trimChars (cs : List Char) : List Char :=
  ((cs.dropWhile Char.isWhitespace).reverse.dropWhile Char.isWhitespace).reverse

/-- Python `str.lower()` on the character list of a string. -/
def lowerChars (cs : List Char) : List Char :=
  cs.map Char.toLower

/-! ## Sentiment Delta Engine (`sentiment_analyzer.py`)

The FinBERT model itself is an external collaborator: the source feeds the
text through the tokenizer and the model and obtains a softmax probability
triple, ordered according to `self.labels = ['positive', 'negative',
'neutral']` as the code indexes it.  We abstract exactly that step as a
function from the input text to the probability triple
`(positive, negative, neutral)`; everything after it is repository code and
is embedded faithfully. -/

/-- The external classifier collaborator: text to softmax probabilities,
in the index order the source uses (`probs[0]` positive, `probs[1]`
negative, `probs[2]` neutral). -/
def Classifier : Type := String → ℚ × ℚ × ℚ

/-- A classifier is well formed when every probability lies in `[0, 1]`
(always true of a softmax output; this is the collaborator contract the
spec states in its external-interfaces section). -/
def ClassifierOk (classify : Classifier) : Prop :=
  ∀ t, 0 ≤ (classify t).1 ∧ (classify t).1 ≤ 1 ∧
    0 ≤ (classify t).2.1 ∧ (classify t).2.1 ≤ 1 ∧
    0 ≤ (classify t).2.2 ∧ (classify t).2.2 ≤ 1

/-- `np.argmax` over the three probabilities, first index winning ties,
mapped through `self.labels = ['positive', 'negative', 'neutral']`. -/
def labelOf (p : ℚ × ℚ × ℚ) : String :=
  if p.2.1 ≤ p.1 ∧ p.2.2 ≤ p.1 then "positive"
  else if p.2.2 ≤ p.2.1 then "negative"
  else "neutral"

/-- The probability at the argmax index: `float(probs[pred_idx])`. -/
def confidenceOf (p : ℚ × ℚ × ℚ) : ℚ :=
  if p.2.1 ≤ p.1 ∧ p.2.2 ≤ p.1 then p.1
  else if p.2.2 ≤ p.2.1 then p.2.1
  else p.2.2

/-- The dict `sentiment_scores = {'positive': 1.0, 'neutral': 0.0,
'negative': -1.0}` as a function on labels. -/
def sentiment_scores (label : String) : ℚ :=
  if label = "positive" then 1
  else if label = "neutral" then 0
  else if label = "negative" then -1
  else 0

/-- Result of `analyze_text`.  `probabilities` is `none` on the short-text
early return, which omits that key in the source. -/
structure SentimentResult where
  score : ℚ
  label : String
  confidence : ℚ
  probabilities : Option (ℚ × ℚ × ℚ)
deriving DecidableEq

/-- `SentimentAnalyzer.analyze_text`: texts that are empty or whose
stripped form has fewer than 10 characters are neutral with score 0 and
confidence 0; otherwise the classifier runs and the signed score is
`sentiment_scores[label] * confidence`. -/
def analyze_text (classify : Classifier) (text : String) : SentimentResult :=
  if text.toList = [] ∨ (trimChars text.toList).length < 10 then
    { score := 0, label := "neutral", confidence := 0, probabilities := none }
  else
    let p := classify text
    let label := labelOf p
    let confidence := confidenceOf p
    { score := sentiment_scores label * confidence, label := label,
      confidence := confidence, probabilities := some p }

/-- `SentimentAnalyzer.analyze_batch`. -/
def analyze_batch (classify : Classifier) (texts : List String) : List SentimentResult :=
  texts.map (analyze_text classify)

/-- `SentimentAnalyzer.calculate_aggregate_sentiment`: arithmetic mean of
the individual scores, `0.0` for the empty list. -/
def calculate_aggregate_sentiment (classify : Classifier) (texts : List String) : ℚ :=
  if texts = [] then 0
  else ((analyze_batch classify texts).map (fun r => r.score)).sum / (texts.length : ℚ)

/-- The risk-level step function inlined in `calculate_sentiment_delta`,
reading the two configured thresholds. -/
def riskLevelOf (lowT medT g : ℚ) : String :=
  if g < lowT then "Low"
  else if g < medT then "Medium"
  else "High"

/-- `config.RISK_THRESHOLDS['low']`. -/
def RISK_THRESHOLDS_low : ℚ := 3 / 10

/-- `config.RISK_THRESHOLDS['medium']`. -/
def RISK_THRESHOLDS_medium : ℚ := 6 / 10

/-- Result of `calculate_sentiment_delta`. -/
structure DeltaResult where
  sec_sentiment : ℚ
  news_sentiment : ℚ
  sentiment_delta : ℚ
  greenwashing_score : ℚ
  risk_level : String
  sec_details : SentimentResult
  news_count : Nat

/-- `SentimentAnalyzer.calculate_sentiment_delta`, with the two configured
thresholds passed explicitly (the source reads them from the `config`
module; they are configuration, not constants). -/
def calculate_sentiment_delta (classify : Classifier) (lowT medT : ℚ)
    (sec_text : String) (news_titles : List String) : DeltaResult :=
  let sec_result := analyze_text classify sec_text
  let sec_sentiment := sec_result.score
  let news_sentiment := calculate_aggregate_sentiment classify news_titles
  let sentiment_delta := sec_sentiment - news_sentiment
  let greenwashing_score := max 0 sentiment_delta / 2
  { sec_sentiment := sec_sentiment, news_sentiment := news_sentiment,
    sentiment_delta := sentiment_delta, greenwashing_score := greenwashing_score,
    risk_level := riskLevelOf lowT medT greenwashing_score,
    sec_details := sec_result, news_count := news_titles.length }

/-! ### Claim C1 -/

/-- A concrete classifier used by the witnesses: probability 1 on
positive, 0 elsewhere. -/
def wClassifier : Classifier := fun _ => (1, 0, 0)

/-- Concrete disclosure text for the witnesses. -/
def wSec : String := "We are deeply committed to sustainability."

/-- Concrete news headlines for the witnesses. -/
def wNews : List String := ["Regulator probes emissions data.", "Cleanup costs rise."]

/-- Concrete run of `calculate_sentiment_delta` for the witnesses. -/
def wDelta : DeltaResult :=
  calculate_sentiment_delta wClassifier RISK_THRESHOLDS_low RISK_THRESHOLDS_medium wSec wNews

/-! ### Claim C2 -/

/-- Rank of a risk tier, for stating monotonicity: Low is 0, Medium 1,
High 2. -/
def tierOrd (s : String) : Nat :=
  if s = "Low" then 0 else if s = "Medium" then 1 else 2

/-! ### Claim C8 -/

/-- Concrete short text for the C8 witness. -/
def wShort : String := "ESG ok"

/-! ## Retrieval Engine: answer extraction (`rag_engine.py`, `_generate_answer`)

The answer-extraction heuristic is pure Python (regular expressions over
the question and the best chunk); it is embedded here operation by
operation.  Python regex word characters are `[a-zA-Z0-9_]`, so
`\b[a-zA-Z]{3,}\b` matches exactly the maximal word-character runs that
consist solely of letters and have length at least 3, and
`\b(18|19|20)\d{2}\b` matches a four-digit token with the stated prefix
whose neighbours are not word characters. -/

/-- Python regex word character `\w` (ASCII): letters, digits, underscore. -/
def wordChar (c : Char) : Bool := c.isAlphanum || c = '_'

/-- Splits a character list into its maximal runs of word characters
(the accumulator holds the current run reversed). -/
def tokenizeAux : List Char → List Char → List (List Char)
  | [], run => if run.isEmpty then [] else [run.reverse]
  | c :: rest, run =>
    if wordChar c then tokenizeAux rest (c :: run)
    else if run.isEmpty then tokenizeAux rest []
    else run.reverse :: tokenizeAux rest []

/-- Maximal word-character runs of a character list. -/
def tokenizeWords (cs : List Char) : List (List Char) := tokenizeAux cs []

/-- The stopword set of `RAGEngine._extract_keywords`. -/
def stop_words : List (List Char) :=
  ["what", "when", "where", "who", "how", "is", "are", "the", "a", "an", "their", "them"].map
    String.toList

/-- `RAGEngine._extract_keywords` on the (already lowercased) question:
`re.findall(r"\b[a-zA-Z]{3,}\b", question)` minus the stopwords. -/
def extract_keywords (question : List Char) : List (List Char) :=
  (tokenizeWords question).filter
    (fun w => w.all Char.isAlpha && decide (3 ≤ w.length) && !(stop_words.contains w))

/-- Python substring test `pat in s`. -/
def containsSub (pat : List Char) : List Char → Bool
  | [] => pat.isEmpty
  | c :: rest => pat.isPrefixOf (c :: rest) || containsSub pat rest

/-- Last character written to the (reversed) current sentence, tested
against the lookbehind class `[.!?]`. -/
def headIsSentEnd : List Char → Bool
  | [] => false
  | c :: _ => c = '.' || c = '!' || c = '?'

/-- Worker for `re.split(r"(?<=[.!?])\s+", context)`: `acc` is the
current sentence reversed, and `skipping` is true while consuming the
whitespace run that forms the current delimiter. -/
def splitSentencesAux : List Char → List Char → Bool → List (List Char)
  | [], acc, _ => [acc.reverse]
  | c :: rest, acc, skipping =>
    if skipping && c.isWhitespace then splitSentencesAux rest acc true
    else if !skipping && c.isWhitespace && headIsSentEnd acc then
      acc.reverse :: splitSentencesAux rest [] true
    else splitSentencesAux rest (c :: acc) false

/-- `re.split(r"(?<=[.!?])\s+", context)`. -/
def splitSentences (cs : List Char) : List (List Char) := splitSentencesAux cs [] false

/-- First two characters of a year token: `(18|19|20)`. -/
def yearStart (c1 c2 : Char) : Bool :=
  (c1 = '1' && (c2 = '8' || c2 = '9')) || (c1 = '2' && c2 = '0')

/-- Word-boundary test on the character preceding a candidate match. -/
def boundaryBefore : Option Char → Bool
  | none => true
  | some p => !wordChar p

/-- Word-boundary test on the characters following a candidate match. -/
def boundaryAfterOk : List Char → Bool
  | [] => true
  | r :: _ => !wordChar r

/-- Scanner for `re.search(r"\b(18|19|20)\d{2}\b", s)`: tries a match at
every position, remembering the previous character for the left
boundary. -/
def hasYearFrom (prev : Option Char) : List Char → Bool
  | c1 :: c2 :: c3 :: c4 :: rest =>
    (boundaryBefore prev && yearStart c1 c2 && c3.isDigit && c4.isDigit
      && boundaryAfterOk rest)
    || hasYearFrom (some c1) (c2 :: c3 :: c4 :: rest)
  | _ => false

/-- Whether the sentence contains a four-digit 18xx/19xx/20xx token. -/
def hasYear (cs : List Char) : Bool := hasYearFrom none cs

/-- Per-sentence score of `_generate_answer`: the number of question
keywords occurring in the lowercased sentence, plus 2 if the sentence
contains a year-like token. -/
def sentence_score (keywords : List (List Char)) (s : List Char) : Nat :=
  (keywords.countP (fun kw => containsSub kw (lowerChars s))) + (if hasYear s then 2 else 0)

/-- The scored-sentence accumulation loop of `_generate_answer`: a
sentence is appended (stripped) when its score is positive and its
length exceeds 30 characters. -/
def buildScored (keywords : List (List Char)) : List (List Char) → List (Nat × List Char)
  | [] => []
  | s :: rest =>
    if 0 < sentence_score keywords s ∧ 30 < s.length then
      (sentence_score keywords s, trimChars s) :: buildScored keywords rest
    else buildScored keywords rest

/-- Stable insertion for the descending-by-score order: an element is
placed before the first strictly smaller score, hence before any equal
score already present; since `sortDesc` inserts earlier elements last,
original order is preserved on ties, exactly the contract of Python
`list.sort(reverse=True, key=...)`. -/
def insertDesc (x : Nat × List Char) : List (Nat × List Char) → List (Nat × List Char)
  | [] => [x]
  | y :: ys => if y.1 ≤ x.1 then x :: y :: ys else y :: insertDesc x ys

/-- Stable sort, descending by score. -/
def sortDesc : List (Nat × List Char) → List (Nat × List Char)
  | [] => []
  | x :: xs => insertDesc x (sortDesc xs)

/-- The fixed message returned when no sentence scores above zero. -/
def noAnswerMsg : String := "The document does not provide a direct answer to this question."

/-- The cue list of `RAGEngine._is_fact_question`. -/
def fact_cues : List (List Char) :=
  ["year", "when", "how many", "number", "date", "incorporated", "founded"].map String.toList

/-- `RAGEngine._is_fact_question` on an (already lowercased) question. -/
def is_fact_question (question : List Char) : Bool :=
  fact_cues.any (fun kw => containsSub kw question)

/-- `RAGEngine._generate_answer`.  Matching on the sorted list is the
same control flow as the source: the sorted list is empty exactly when
the scored list is, and Python sorts `scored` in place before indexing
into it. -/
def generate_answer (question context : String) : String :=
  let question_lower := lowerChars question.toList
  let keywords := extract_keywords question_lower
  let scored := buildScored keywords (splitSentences context.toList)
  match sortDesc scored with
  | [] => noAnswerMsg
  | top :: restSorted =>
    if is_fact_question question_lower then String.mk top.2
    else String.intercalate (" ") (((top :: restSorted).take 2).map (fun p => String.mk p.2))

/-- The answer-extraction pipeline exactly as the specification words it:
split into sentences, score each sentence, discard by score and length
(the length rule is the `lenOk` parameter), rank by score descending with
a stable sort, then select one sentence for fact questions and up to two
for descriptive ones, falling back to the fixed message. -/
def answerPipeline (lenOk : Nat → Bool) (question context : String) : String :=
  let question_lower := lowerChars question.toList
  let keywords := extract_keywords question_lower
  let sentences := splitSentences context.toList
  let scored :=
    ((sentences.map (fun s => (sentence_score keywords s, s))).filter
      (fun p => decide (0 < p.1) && lenOk p.2.length)).map
      (fun p => (p.1, trimChars p.2))
  match sortDesc scored with
  | [] => noAnswerMsg
  | top :: restSorted =>
    if is_fact_question question_lower then String.mk top.2
    else String.intercalate (" ") (((top :: restSorted).take 2).map (fun p => String.mk p.2))

/-! ## Retrieval Engine: documents, indexing, querying (`rag_engine.py`)

Python dict values occurring in chunk metadata are strings and integers;
dicts are insertion-ordered association lists, and assignment `d[k] = v`
replaces the value in place when the key exists and appends otherwise
(dicts never hold duplicate keys). -/

/-- A Python metadata value: a string or an integer. -/
inductive PyVal where
  | str : String → PyVal
  | int : Nat → PyVal
deriving DecidableEq

/-- Python dict assignment `d[k] = v` on an insertion-ordered
association list. -/
def assocSet {α : Type} : List (String × α) → String → α → List (String × α)
  | [], k, v => [(k, v)]
  | (k2, v2) :: rest, k, v =>
    if k2 = k then (k, v) :: rest else (k2, v2) :: assocSet rest k v

/-- Python dict read `d.get(k)`. -/
def assocGet {α : Type} (d : List (String × α)) (k : String) : Option α :=
  (d.find? (fun p => decide (p.1 = k))).map (fun p => p.2)

/-- The `RecursiveCharacterTextSplitter(chunk_size=600, chunk_overlap=120)`
collaborator from langchain.  Modelled from the spec: the splitter itself
is external library code; the spec describes it as a sliding window of
size 600 with overlap 120 over the text (stride 480), so that is the
model used here. -/
def chunkText (cs : List Char) : List (List Char) :=
  if h0 : cs.length = 0 then []
  else if h600 : cs.length ≤ 600 then [cs]
  else cs.take 600 :: chunkText (cs.drop 480)
termination_by cs.length
decreasing_by
  simp only [List.length_drop]
  omega

/-- Number of chunks the sliding-window splitter produces on input of a
given length. -/
def chunkCount (n : Nat) : Nat :=
  if h0 : n = 0 then 0
  else if h600 : n ≤ 600 then 1
  else 1 + chunkCount (n - 480)
termination_by n
decreasing_by omega

/-- A langchain `Document`: page content plus metadata dict. -/
structure Document where
  page_content : String
  metadata : List (String × PyVal)
deriving DecidableEq

/-- `RAGEngine.process_document`: chunk the text, then build one
`Document` per chunk from a copy of the metadata dict extended with the
0-based `chunk_id` and the chunk character length, the content being the
stripped chunk. -/
def process_document (text : String) (metadata : List (String × PyVal)) : List Document :=
  (chunkText text.toList).enum.map (fun ic =>
    { page_content := String.mk (trimChars ic.2),
      metadata := assocSet (assocSet metadata ("chunk_id") (PyVal.int ic.1))
        ("chunk_length") (PyVal.int ic.2.length) })

/-- The per-ticker Chroma collection collaborator, abstracted as the
list of documents it holds. -/
structure VectorStore where
  docs : List Document
deriving DecidableEq

/-- `Chroma.from_documents`: per the spec collaborator contract the
resulting per-ticker collection holds exactly the given documents (the
prior collection for the same name is overwritten entirely). -/
def Chroma_from_documents (documents : List Document) : VectorStore :=
  { docs := documents }

/-- `self.vector_stores[ticker]._collection.count()`: the number of
stored chunks. -/
def collection_count (s : VectorStore) : Nat := s.docs.length

/-- The engine state: the `self.vector_stores` dict, keyed by the raw
ticker string. -/
structure RAGState where
  vector_stores : List (String × VectorStore)

/-- Membership/read on `self.vector_stores`. -/
def storesLookup (st : RAGState) (ticker : String) : Option VectorStore :=
  assocGet st.vector_stores ticker

/-- `RAGEngine.index_document`: texts shorter than 500 characters are
rejected with `False` before any state change; otherwise the metadata
dict gains the uppercased ticker, the text is chunked, and the ticker
entry of `vector_stores` is assigned the freshly built collection.
`metadata = metadata or {}` rebinds `None` and the falsy empty dict to a
fresh dict; value-wise that equals `getD []` here, and the aliasing
consequence for the caller is captured by `index_document_callerMeta`. -/
def index_document (st : RAGState) (ticker text : String)
    (metadata : Option (List (String × PyVal))) : Bool × RAGState :=
  if text.length < 500 then (false, st)
  else
    let md := assocSet (metadata.getD []) ("ticker") (PyVal.str ticker.toUpper)
    let documents := process_document text md
    (true, { vector_stores :=
      assocSet st.vector_stores ticker (Chroma_from_documents documents) })

/-- One entry of the `sources` list of a query result. -/
structure QuerySource where
  content : String
  chunk_id : Option PyVal
  relevance_score : ℚ
deriving DecidableEq

/-- The dict returned by `RAGEngine.query_document`. -/
structure QueryResult where
  answer : String
  sources : List QuerySource
  context : String
deriving DecidableEq

/-- The retrieval depth actually used by `query_document`: fact-style
questions force `k = 1` (the source lowercases the question before the
cue test). -/
def retrievalK (question : String) (k : Nat) : Nat :=
  if is_fact_question (lowerChars question.toList) = true then 1 else k

/-- The `similarity_search_with_score` collaborator: a store, a query
string and a depth give a scored document list. -/
def SearchFn : Type := VectorStore → String → Nat → List (Document × ℚ)

/-- The reattachment collaborator, modelling the `Chroma(...)`
constructor on a persisted per-ticker collection: `some` when such a
collection exists, `none` when the constructor raises because none
does. -/
def AttachFn : Type := String → Option VectorStore

/-- The body of `query_document` once a store for the ticker is at hand:
forced `k`, similarity search, and answer extraction from the single
best chunk. -/
def query_with_store (search : SearchFn) (store : VectorStore) (question : String)
    (k : Nat) : QueryResult :=
  match search store question (retrievalK question k) with
  | [] => { answer := "No relevant information found.", sources := [], context := "" }
  | (best_doc, score) :: _ =>
    { answer := generate_answer question best_doc.page_content,
      sources := [{ content := best_doc.page_content,
                    chunk_id := assocGet best_doc.metadata ("chunk_id"),
                    relevance_score := score }],
      context := String.mk (best_doc.page_content.toList.take 2000) }

/-- `RAGEngine.query_document`: a missing in-memory index triggers the
reattachment attempt; a failed attempt returns the fixed not-indexed
answer with empty sources as a normal value. -/
def query_document (attach : AttachFn) (search : SearchFn) (st : RAGState)
    (ticker question : String) (k : Nat) : QueryResult × RAGState :=
  match storesLookup st ticker with
  | some store => (query_with_store search store question k, st)
  | none =>
    match attach ticker with
    | none =>
      ({ answer := "No indexed document for " ++ ticker ++ ".",
         sources := [], context := "" }, st)
    | some store =>
      (query_with_store search store question k,
       { vector_stores := assocSet st.vector_stores ticker store })

/-- The dict returned by `RAGEngine.get_document_stats`. -/
structure DocStats where
  ticker : String
  chunk_count : Nat
deriving DecidableEq

/-- `RAGEngine.get_document_stats`: `None` for an unindexed ticker,
otherwise the ticker with its collection count. -/
def get_document_stats (st : RAGState) (ticker : String) : Option DocStats :=
  match storesLookup st ticker with
  | none => none
  | some s => some { ticker := ticker, chunk_count := collection_count s }

/-! ### Claim C3 -/

/-- Concrete question for the C3 counterexample. -/
def cexQuestion : String := "What is the climate plan?"

/-- Concrete retrieved chunk for the C3 counterexample: a single
relevant sentence of exactly 30 characters. -/
def cexContext : String := "Climate change is coming soon."

/-! ### Claim C7 -/

/-- The engine state with no indexes, for witnesses. -/
def emptyState : RAGState := { vector_stores := [] }

/-- Concrete ticker for witnesses. -/
def wTicker : String := "AAPL"

/-- Concrete too-short document text for the C7 witness. -/
def wShortDoc : String := "too short"

/-! ### Claim C5 -/

/-- An attach collaborator with no persisted collections, for witnesses. -/
def wAttachNone : AttachFn := fun _ => none

/-- A search collaborator returning no results, for witnesses. -/
def wSearchEmpty : SearchFn := fun _ _ _ => []

/-- Concrete question for the query witnesses. -/
def wQuestion : String := "What are the emissions targets?"

/-! ### Claim C6 -/

/-- Concrete fact-style question (mixed case) for the C6 witness. -/
def wFactQuestion : String := "What YEAR was the company founded?"

/-! ### Claim C4 -/

/-- First indexed text for the C4 witness: 500 characters. -/
def wText1 : String := String.mk (List.replicate 500 'a')

/-- Second indexed text for the C4 witness: 700 characters. -/
def wText2 : String := String.mk (List.replicate 700 'b')

/-- The state after indexing `wTicker` twice, for the C4 witness. -/
def wSt2 : RAGState :=
  (index_document (index_document emptyState wTicker wText1 none).2 wTicker wText2 none).2

/-! ### Claim C9 -/

/-! ### Claim C10 -/

/-- The value of the caller's metadata dictionary object after
`index_document` returns.  The source runs `metadata = metadata or {}`
before `metadata["ticker"] = ticker.upper()`: `or` rebinds a falsy
argument (`None`, but also the non-None empty dict) to a fresh dict, so
the caller-owned object is mutated only when the call actually indexes
(text of at least 500 characters; the too-short early return happens
first) and the passed dict is non-empty; only then does the assignment
execute on the caller's object. -/
def index_document_callerMeta (ticker text : String)
    (metadata : List (String × PyVal)) : List (String × PyVal) :=
  if text.length < 500 then metadata
  else if metadata = [] then metadata
  else assocSet metadata ("ticker") (PyVal.str ticker.toUpper)

/-- Concrete non-empty caller metadata dict for the C10 witness. -/
def wMeta : List (String × PyVal) := [(("source"), PyVal.str ("sec"))]

/-- The caller-visible dict after the C10 witness call. -/
def wCallerAfter : List (String × PyVal) :=
  index_document_callerMeta wTicker wText1 wMeta

/-! ## Theorems -/

theorem dropWhile_length_le {α : Type} (p : α → Bool) (l : List α) :
    (l.dropWhile p).length ≤ l.length := by
  induction l with
  | nil => simp
  | cons x xs ih =>
    simp only [List.dropWhile]
    split
    · exact Nat.le_succ_of_le ih
    · exact Nat.le_refl _

theorem trimChars_length_le (cs : List Char) : (trimChars cs).length ≤ cs.length := by
  unfold trimChars
  calc (((cs.dropWhile Char.isWhitespace).reverse.dropWhile Char.isWhitespace).reverse).length
      = ((cs.dropWhile Char.isWhitespace).reverse.dropWhile Char.isWhitespace).length := by
        rw [List.length_reverse]
    _ ≤ (cs.dropWhile Char.isWhitespace).reverse.length := dropWhile_length_le _ _
    _ = (cs.dropWhile Char.isWhitespace).length := by rw [List.length_reverse]
    _ ≤ cs.length := dropWhile_length_le _ _

/-! ### Bounds lemmas for the sentiment scores -/

theorem confidenceOf_bounds (classify : Classifier) (hc : ClassifierOk classify)
    (t : String) : 0 ≤ confidenceOf (classify t) ∧ confidenceOf (classify t) ≤ 1 := by
  obtain ⟨h1, h2, h3, h4, h5, h6⟩ := hc t
  unfold confidenceOf
  split_ifs <;> exact ⟨by assumption, by assumption⟩

theorem sentiment_scores_cases (label : String) :
    sentiment_scores label = 1 ∨ sentiment_scores label = 0 ∨ sentiment_scores label = -1 := by
  unfold sentiment_scores
  split_ifs <;> simp

theorem analyze_text_score_bounds (classify : Classifier) (hc : ClassifierOk classify)
    (text : String) :
    -1 ≤ (analyze_text classify text).score ∧ (analyze_text classify text).score ≤ 1 := by
  unfold analyze_text
  split_ifs with h
  · constructor <;> norm_num
  · obtain ⟨hcl, hcu⟩ := confidenceOf_bounds classify hc text
    rcases sentiment_scores_cases (labelOf (classify text)) with hs | hs | hs <;>
      simp only [hs] <;> constructor <;> nlinarith

theorem sum_bounds (l : List ℚ) (h : ∀ x ∈ l, -1 ≤ x ∧ x ≤ 1) :
    -(l.length : ℚ) ≤ l.sum ∧ l.sum ≤ (l.length : ℚ) := by
  induction l with
  | nil => simp
  | cons x xs ih =>
    obtain ⟨hx1, hx2⟩ := h x (List.mem_cons_self x xs)
    obtain ⟨ih1, ih2⟩ := ih (fun y hy => h y (List.mem_cons_of_mem x hy))
    simp only [List.sum_cons, List.length_cons]
    push_cast
    constructor <;> linarith

theorem aggregate_bounds (classify : Classifier) (hc : ClassifierOk classify)
    (texts : List String) :
    -1 ≤ calculate_aggregate_sentiment classify texts ∧
      calculate_aggregate_sentiment classify texts ≤ 1 := by
  unfold calculate_aggregate_sentiment
  split_ifs with h
  · norm_num
  · have hlen : 0 < (texts.length : ℚ) := by
      have : texts.length ≠ 0 := fun hz => h (List.eq_nil_of_length_eq_zero hz)
      positivity
    have hmem : ∀ x ∈ (analyze_batch classify texts).map (fun r => r.score),
        -1 ≤ x ∧ x ≤ 1 := by
      intro x hx
      simp only [analyze_batch, List.map_map, List.mem_map] at hx
      obtain ⟨t, _, rfl⟩ := hx
      exact analyze_text_score_bounds classify hc t
    have hsum := sum_bounds _ hmem
    have hlen2 : (((analyze_batch classify texts).map (fun r => r.score)).length : ℚ)
        = (texts.length : ℚ) := by
      simp [analyze_batch]
    rw [hlen2] at hsum
    constructor
    · rw [le_div_iff₀ hlen]
      linarith [hsum.1]
    · rw [div_le_one hlen]
      exact hsum.2

/-- C1: for every disclosure text and list of news headlines (and any
well-formed classifier and threshold configuration),
`calculate_sentiment_delta` returns a result in which `sentiment_delta`
equals `sec_sentiment` minus `news_sentiment` exactly,
`greenwashing_score` equals `max 0 sentiment_delta / 2`, the
`greenwashing_score` lies in `[0, 1]`, and a negative `sentiment_delta`
yields `greenwashing_score` exactly `0`. -/
theorem claim1_delta_and_score_invariants (classify : Classifier)
    (hc : ClassifierOk classify) (lowT medT : ℚ) (sec : String) (news : List String)
    (r : DeltaResult) (hr : r = calculate_sentiment_delta classify lowT medT sec news) :
    r.sentiment_delta = r.sec_sentiment - r.news_sentiment ∧
    r.greenwashing_score = max 0 r.sentiment_delta / 2 ∧
    0 ≤ r.greenwashing_score ∧ r.greenwashing_score ≤ 1 ∧
    (r.sentiment_delta < 0 → r.greenwashing_score = 0) := by
  subst hr
  have hs := analyze_text_score_bounds classify hc sec
  have ha := aggregate_bounds classify hc news
  refine ⟨rfl, rfl, ?_, ?_, ?_⟩
  · show (0 : ℚ) ≤ max 0 _ / 2
    positivity
  · show max 0 ((analyze_text classify sec).score
        - calculate_aggregate_sentiment classify news) / 2 ≤ 1
    have hd : (analyze_text classify sec).score
        - calculate_aggregate_sentiment classify news ≤ 2 := by linarith [hs.2, ha.1]
    have : max 0 ((analyze_text classify sec).score
        - calculate_aggregate_sentiment classify news) ≤ 2 := max_le (by norm_num) hd
    linarith
  · intro hneg
    show max 0 ((analyze_text classify sec).score
        - calculate_aggregate_sentiment classify news) / 2 = 0
    have : max 0 ((analyze_text classify sec).score
        - calculate_aggregate_sentiment classify news) = 0 :=
      max_eq_left (le_of_lt hneg)
    rw [this]
    norm_num

theorem wClassifier_ok : ClassifierOk wClassifier := by
  intro t
  refine ⟨?_, ?_, ?_, ?_, ?_, ?_⟩ <;> norm_num [wClassifier]

theorem claim1_delta_and_score_invariants_witness :
    ClassifierOk wClassifier ∧
    (wDelta.sentiment_delta = wDelta.sec_sentiment - wDelta.news_sentiment ∧
     wDelta.greenwashing_score = max 0 wDelta.sentiment_delta / 2 ∧
     0 ≤ wDelta.greenwashing_score ∧ wDelta.greenwashing_score ≤ 1 ∧
     (wDelta.sentiment_delta < 0 → wDelta.greenwashing_score = 0)) :=
  ⟨wClassifier_ok,
   claim1_delta_and_score_invariants wClassifier wClassifier_ok
     RISK_THRESHOLDS_low RISK_THRESHOLDS_medium wSec wNews wDelta rfl⟩

theorem tierOrd_low : tierOrd "Low" = 0 := rfl

theorem tierOrd_medium : tierOrd "Medium" = 1 := rfl

theorem tierOrd_high : tierOrd "High" = 2 := rfl

/-- C2: the risk tier returned by `calculate_sentiment_delta` is exactly
the step function `riskLevelOf` of the risk score against the two
configured ascending thresholds (defaults `0.3` and `0.6`): a score below
the low threshold yields Low, a score in `[low, medium)` yields Medium,
and a score at or above the medium threshold yields High; moreover the
step function is monotone in the score. -/
theorem claim2_risk_tier_step_monotone (classify : Classifier) (lowT medT : ℚ)
    (hlm : lowT ≤ medT) (sec : String) (news : List String)
    (r : DeltaResult) (hr : r = calculate_sentiment_delta classify lowT medT sec news) :
    r.risk_level = riskLevelOf lowT medT r.greenwashing_score ∧
    (∀ g : ℚ,
      (g < lowT → riskLevelOf lowT medT g = "Low") ∧
      (lowT ≤ g ∧ g < medT → riskLevelOf lowT medT g = "Medium") ∧
      (medT ≤ g → riskLevelOf lowT medT g = "High")) ∧
    (∀ g1 g2 : ℚ, g1 ≤ g2 →
      tierOrd (riskLevelOf lowT medT g1) ≤ tierOrd (riskLevelOf lowT medT g2)) := by
  subst hr
  refine ⟨rfl, ?_, ?_⟩
  · intro g
    refine ⟨?_, ?_, ?_⟩ <;> intro h <;> unfold riskLevelOf <;> split_ifs with h1 h2 <;>
      first
        | rfl
        | (exfalso; first | linarith | linarith [h.1, h.2])
  · intro g1 g2 hle
    unfold riskLevelOf
    split_ifs <;>
      simp only [tierOrd_low, tierOrd_medium, tierOrd_high] <;>
      first | omega | linarith

theorem claim2_risk_tier_step_monotone_witness :
    RISK_THRESHOLDS_low ≤ RISK_THRESHOLDS_medium ∧
    (wDelta.risk_level
        = riskLevelOf RISK_THRESHOLDS_low RISK_THRESHOLDS_medium wDelta.greenwashing_score ∧
     (∀ g : ℚ,
       (g < RISK_THRESHOLDS_low →
         riskLevelOf RISK_THRESHOLDS_low RISK_THRESHOLDS_medium g = "Low") ∧
       (RISK_THRESHOLDS_low ≤ g ∧ g < RISK_THRESHOLDS_medium →
         riskLevelOf RISK_THRESHOLDS_low RISK_THRESHOLDS_medium g = "Medium") ∧
       (RISK_THRESHOLDS_medium ≤ g →
         riskLevelOf RISK_THRESHOLDS_low RISK_THRESHOLDS_medium g = "High")) ∧
     (∀ g1 g2 : ℚ, g1 ≤ g2 →
       tierOrd (riskLevelOf RISK_THRESHOLDS_low RISK_THRESHOLDS_medium g1)
         ≤ tierOrd (riskLevelOf RISK_THRESHOLDS_low RISK_THRESHOLDS_medium g2))) :=
  ⟨by norm_num [RISK_THRESHOLDS_low, RISK_THRESHOLDS_medium],
   claim2_risk_tier_step_monotone wClassifier RISK_THRESHOLDS_low RISK_THRESHOLDS_medium
     (by norm_num [RISK_THRESHOLDS_low, RISK_THRESHOLDS_medium]) wSec wNews wDelta rfl⟩

/-- C8: a text that is empty or shorter than 10 characters yields score
`0`, confidence `0` and label neutral, and the result does not depend on
the classifier at all (the model is never invoked); an empty headline
list yields aggregate sentiment exactly `0`, again for every
classifier. -/
theorem claim8_short_text_neutral_and_empty_news (classify : Classifier) (text : String)
    (h : text.length < 10) :
    analyze_text classify text
      = { score := 0, label := "neutral", confidence := 0, probabilities := none } ∧
    (∀ c : Classifier, analyze_text c text = analyze_text classify text) ∧
    (∀ c : Classifier, calculate_aggregate_sentiment c [] = 0) := by
  have hshort : text.toList = [] ∨ (trimChars text.toList).length < 10 := by
    right
    have h1 : (trimChars text.toList).length ≤ text.toList.length :=
      trimChars_length_le text.toList
    have h2 : text.toList.length = text.length := rfl
    omega
  have hval : ∀ c : Classifier, analyze_text c text
      = { score := 0, label := "neutral", confidence := 0, probabilities := none } := by
    intro c
    unfold analyze_text
    exact if_pos hshort
  exact ⟨hval classify, fun c => (hval c).trans (hval classify).symm, fun c => rfl⟩

theorem claim8_short_text_neutral_and_empty_news_witness :
    wShort.length < 10 ∧
    (analyze_text wClassifier wShort
        = { score := 0, label := "neutral", confidence := 0, probabilities := none } ∧
     (∀ c : Classifier, analyze_text c wShort = analyze_text wClassifier wShort) ∧
     (∀ c : Classifier, calculate_aggregate_sentiment c [] = 0)) :=
  ⟨by decide,
   claim8_short_text_neutral_and_empty_news wClassifier wShort (by decide)⟩

theorem isPrefixOf_append (pat suffix : List Char) :
    pat.isPrefixOf (pat ++ suffix) = true := by
  induction pat with
  | nil => simp [List.isPrefixOf]
  | cons a l ih => simp [List.isPrefixOf, ih]

theorem containsSub_of_prefix (pat : List Char) :
    ∀ l : List Char, pat.isPrefixOf l = true → containsSub pat l = true := by
  intro l h
  cases l with
  | nil =>
    cases pat with
    | nil => rfl
    | cons a as => simp [List.isPrefixOf] at h
  | cons c rest => simp [containsSub, h]

theorem containsSub_of_append (pat suffix : List Char) :
    containsSub pat (pat ++ suffix) = true :=
  containsSub_of_prefix pat (pat ++ suffix) (isPrefixOf_append pat suffix)

theorem buildScored_eq (keywords : List (List Char)) (ss : List (List Char)) :
    buildScored keywords ss =
      ((ss.map (fun s => (sentence_score keywords s, s))).filter
        (fun p => decide (0 < p.1) && decide (30 < p.2.length))).map
        (fun p => (p.1, trimChars p.2)) := by
  induction ss with
  | nil => rfl
  | cons s rest ih =>
    by_cases h1 : 0 < sentence_score keywords s <;>
      by_cases h2 : 30 < s.length <;>
        simp [buildScored, List.filter_cons, h1, h2, ih]

/-- C3 (amended): `_generate_answer` equals the specified extractive
pipeline, with the discard rule amended from "shorter than 30
characters" to "of length at most 30 characters" (the source keeps a
sentence only when `len(s) > 30`, so a sentence of exactly 30 characters
is discarded too); everything else is as the claim states: sentence
split, keyword scoring with the +2 year bonus, stable descending
ranking, top-1 for fact questions, top-2 joined by a space otherwise,
and the fixed message when nothing scores above zero. -/
theorem claim3_amended_answer_extraction (question context : String) :
    generate_answer question context
      = answerPipeline (fun l => decide (30 < l)) question context := by
  simp only [generate_answer, answerPipeline, buildScored_eq]

/-- C3 is false as stated: on a chunk whose only sentence has exactly 30
characters and a positive keyword score, the claimed rule keeps the
sentence (it is not shorter than 30 characters) and would return it,
but the source discards it (`len(s) > 30` fails) and returns the fixed
no-answer message instead. -/
theorem claim3_counterexample :
    generate_answer cexQuestion cexContext = noAnswerMsg ∧
    answerPipeline (fun l => decide (30 ≤ l)) cexQuestion cexContext
      = "Climate change is coming soon." ∧
    generate_answer cexQuestion cexContext
      ≠ answerPipeline (fun l => decide (30 ≤ l)) cexQuestion cexContext := by
  refine ⟨?_, ?_, ?_⟩ <;> decide

/-! ### Association-list lemmas (Python dict assignment) -/

theorem assocGet_assocSet_same {α : Type} (d : List (String × α)) (k : String) (v : α) :
    assocGet (assocSet d k v) k = some v := by
  induction d with
  | nil => simp [assocSet, assocGet, List.find?]
  | cons p rest ih =>
    obtain ⟨k2, v2⟩ := p
    by_cases h : k2 = k
    · subst h
      simp [assocSet, assocGet, List.find?]
    · simpa [assocSet, assocGet, List.find?, h] using ih

theorem assocGet_assocSet_ne {α : Type} (d : List (String × α)) (k k2 : String) (v : α)
    (hne : k2 ≠ k) : assocGet (assocSet d k v) k2 = assocGet d k2 := by
  induction d with
  | nil => simp [assocSet, assocGet, List.find?, Ne.symm hne]
  | cons p rest ih =>
    obtain ⟨k3, v3⟩ := p
    by_cases h : k3 = k
    · subst h
      simp [assocSet, assocGet, List.find?, Ne.symm hne]
    · by_cases h2 : k3 = k2
      · subst h2
        simp [assocSet, assocGet, List.find?, h]
      · simpa [assocSet, assocGet, List.find?, h, h2] using ih

theorem keys_assocSet {α : Type} (d : List (String × α)) (k : String) (v : α) :
    (assocSet d k v).map Prod.fst
      = if k ∈ d.map Prod.fst then d.map Prod.fst else d.map Prod.fst ++ [k] := by
  induction d with
  | nil => simp [assocSet]
  | cons p rest ih =>
    obtain ⟨k3, v3⟩ := p
    by_cases h : k3 = k
    · subst h
      simp [assocSet]
    · by_cases hmem : k ∈ rest.map Prod.fst
      · simp [assocSet, h, ih, hmem, Ne.symm h]
      · simp [assocSet, h, ih, hmem, Ne.symm h]

theorem count_keys_assocSet {α : Type} (d : List (String × α)) (k : String) (v : α)
    (hnd : (d.map Prod.fst).Nodup) :
    ((assocSet d k v).map Prod.fst).count k = 1 := by
  rw [keys_assocSet]
  by_cases hmem : k ∈ d.map Prod.fst
  · rw [if_pos hmem]
    exact List.nodup_iff_count_eq_one.mp hnd k hmem
  · rw [if_neg hmem, List.count_append, List.count_eq_zero_of_not_mem hmem]
    simp

theorem nodup_keys_assocSet {α : Type} (d : List (String × α)) (k : String) (v : α)
    (hnd : (d.map Prod.fst).Nodup) :
    ((assocSet d k v).map Prod.fst).Nodup := by
  rw [keys_assocSet]
  by_cases hmem : k ∈ d.map Prod.fst
  · rw [if_pos hmem]
    exact hnd
  · rw [if_neg hmem]
    simp [List.nodup_append, hnd, hmem]

/-! ### Chunk-count lemmas -/

theorem chunkText_length_aux : ∀ (n : Nat) (cs : List Char), cs.length = n →
    (chunkText cs).length = chunkCount cs.length := by
  intro n
  induction n using Nat.strong_induction_on with
  | _ n ih =>
    intro cs hlen
    by_cases h0 : cs.length = 0
    · rw [chunkText.eq_def, chunkCount.eq_def, dif_pos h0, dif_pos h0]
      rfl
    · by_cases h600 : cs.length ≤ 600
      · rw [chunkText.eq_def, chunkCount.eq_def, dif_neg h0, dif_neg h0,
          dif_pos h600, dif_pos h600]
        rfl
      · have hdl : (cs.drop 480).length = cs.length - 480 := by
          simp [List.length_drop]
        have hrec := ih (cs.length - 480) (by omega) (cs.drop 480) hdl
        rw [chunkText.eq_def, chunkCount.eq_def, dif_neg h0, dif_neg h0,
          dif_neg h600, dif_neg h600]
        simp only [List.length_cons]
        rw [hrec, hdl]
        omega

theorem chunkText_length (cs : List Char) :
    (chunkText cs).length = chunkCount cs.length :=
  chunkText_length_aux cs.length cs rfl

theorem chunkCount_bound : ∀ n : Nat,
    (⌈((n : ℚ) - 120) / 480⌉ - 1 ≤ (chunkCount n : ℤ)) ∧
    ((chunkCount n : ℤ) ≤ ⌈((n : ℚ) - 120) / 480⌉ + 1) := by
  intro n
  induction n using Nat.strong_induction_on with
  | _ n ih =>
    by_cases h0 : n = 0
    · subst h0
      have hc : ⌈((0 : ℚ) - 120) / 480⌉ = 0 := by
        have h1 : ⌈((0 : ℚ) - 120) / 480⌉ ≤ 0 := by
          rw [Int.ceil_le]
          norm_num
        have h2 : (-1 : ℤ) < ⌈((0 : ℚ) - 120) / 480⌉ := by
          rw [Int.lt_ceil]
          norm_num
        omega
      rw [chunkCount.eq_def, dif_pos rfl]
      push_cast
      rw [hc]
      norm_num
    · by_cases h600 : n ≤ 600
      · have hcle : ⌈((n : ℚ) - 120) / 480⌉ ≤ 1 := by
          rw [Int.ceil_le]
          have hn : (n : ℚ) ≤ 600 := by exact_mod_cast h600
          rw [div_le_iff (by norm_num : (0 : ℚ) < 480)]
          push_cast
          linarith
        have hcge : (0 : ℤ) ≤ ⌈((n : ℚ) - 120) / 480⌉ := by
          have h2 : (-1 : ℤ) < ⌈((n : ℚ) - 120) / 480⌉ := by
            rw [Int.lt_ceil]
            have hn : (1 : ℚ) ≤ (n : ℚ) := by
              exact_mod_cast Nat.one_le_iff_ne_zero.mpr h0
            rw [lt_div_iff (by norm_num : (0 : ℚ) < 480)]
            push_cast
            linarith
          omega
        rw [chunkCount.eq_def, dif_neg h0, dif_pos h600]
        constructor
        · push_cast
          omega
        · push_cast
          omega
      · obtain ⟨ih1, ih2⟩ := ih (n - 480) (by omega)
        have hcast : ((n - 480 : Nat) : ℚ) = (n : ℚ) - 480 := by
          have h480 : (480 : Nat) ≤ n := by omega
          push_cast [Nat.cast_sub h480]
          ring
        have hshift : ⌈((n : ℚ) - 120) / 480⌉ = ⌈(((n - 480 : Nat) : ℚ) - 120) / 480⌉ + 1 := by
          rw [hcast]
          rw [show ((n : ℚ) - 120) / 480 = ((n : ℚ) - 480 - 120) / 480 + 1 by ring]
          exact Int.ceil_add_one _
        rw [chunkCount.eq_def, dif_neg h0, dif_neg h600]
        constructor
        · push_cast
          linarith
        · push_cast
          linarith

theorem enumFrom_map_fst_eq {β : Type} (f : Nat → β) :
    ∀ (n : Nat) (l : List (List Char)),
      (List.enumFrom n l).map (fun ic => f ic.1) = (List.range' n l.length).map f := by
  intro n l
  induction l generalizing n with
  | nil => simp
  | cons c rest ih => simp [List.enumFrom, List.range'_succ, ih]

/-- C7: a document text shorter than 500 characters (including the empty
text) makes `index_document` return `False` without touching the
per-ticker index map; the embedded function is total, so no exception is
possible. -/
theorem claim7_short_document_rejected (st : RAGState) (ticker text : String)
    (metadata : Option (List (String × PyVal))) (h : text.length < 500) :
    index_document st ticker text metadata = (false, st) ∧
    (index_document st ticker text metadata).2.vector_stores = st.vector_stores := by
  have h1 : index_document st ticker text metadata = (false, st) := by
    unfold index_document
    exact if_pos h
  exact ⟨h1, by rw [h1]⟩

theorem claim7_short_document_rejected_witness :
    wShortDoc.length < 500 ∧
    (index_document emptyState wTicker wShortDoc none = (false, emptyState) ∧
     (index_document emptyState wTicker wShortDoc none).2.vector_stores
       = emptyState.vector_stores) :=
  ⟨by decide, claim7_short_document_rejected emptyState wTicker wShortDoc none (by decide)⟩

/-- C5: querying a ticker with no in-memory index and no persisted
collection to reattach (the attach collaborator yields nothing) returns,
as a plain value, an answer carrying the explicit not-indexed signal and
an empty sources list, leaving the state unchanged. -/
theorem claim5_unindexed_query (attach : AttachFn) (search : SearchFn) (st : RAGState)
    (ticker question : String) (k : Nat)
    (h1 : storesLookup st ticker = none) (h2 : attach ticker = none) :
    (query_document attach search st ticker question k).1.answer
        = "No indexed document for " ++ ticker ++ "." ∧
    containsSub ("No indexed document").toList
        ((query_document attach search st ticker question k).1.answer).toList = true ∧
    (query_document attach search st ticker question k).1.sources = [] ∧
    (query_document attach search st ticker question k).2 = st := by
  simp only [query_document, h1, h2]
  refine ⟨by trivial, ?_, by trivial, by trivial⟩
  exact containsSub_of_prefix _ _ rfl

theorem claim5_unindexed_query_witness :
    (storesLookup emptyState wTicker = none ∧ wAttachNone wTicker = none) ∧
    ((query_document wAttachNone wSearchEmpty emptyState wTicker wQuestion 5).1.answer
        = "No indexed document for " ++ wTicker ++ "." ∧
     containsSub ("No indexed document").toList
        ((query_document wAttachNone wSearchEmpty emptyState wTicker wQuestion 5).1.answer).toList
        = true ∧
     (query_document wAttachNone wSearchEmpty emptyState wTicker wQuestion 5).1.sources = [] ∧
     (query_document wAttachNone wSearchEmpty emptyState wTicker wQuestion 5).2 = emptyState) :=
  ⟨⟨rfl, rfl⟩,
   claim5_unindexed_query wAttachNone wSearchEmpty emptyState wTicker wQuestion 5 rfl rfl⟩

/-- C6: when the question contains one of the fact cues (the source
lowercases the question first, so the match is case-insensitive), the
retrieval depth is forced to 1, and `query_document` behaves exactly as
if the caller had requested `k = 1`, whatever `k` was requested. -/
theorem claim6_fact_question_forces_k1 (question : String) (k : Nat)
    (h : is_fact_question (lowerChars question.toList) = true) :
    retrievalK question k = 1 ∧
    (∀ (attach : AttachFn) (search : SearchFn) (st : RAGState) (ticker : String),
      query_document attach search st ticker question k
        = query_document attach search st ticker question 1) := by
  have hk : ∀ k2 : Nat, retrievalK question k2 = 1 := by
    intro k2
    unfold retrievalK
    rw [if_pos h]
  refine ⟨hk k, ?_⟩
  intro attach search st ticker
  simp only [query_document, query_with_store, hk]

theorem claim6_fact_question_forces_k1_witness :
    is_fact_question (lowerChars wFactQuestion.toList) = true ∧
    (retrievalK wFactQuestion 5 = 1 ∧
     (∀ (attach : AttachFn) (search : SearchFn) (st : RAGState) (ticker : String),
       query_document attach search st ticker wFactQuestion 5
         = query_document attach search st ticker wFactQuestion 1)) :=
  ⟨by decide, claim6_fact_question_forces_k1 wFactQuestion 5 (by decide)⟩

/-- C4: indexing the same ticker twice with two (long enough) texts
leaves exactly one entry for that ticker in the index map, holding the
collection built from the second text alone, and the reported chunk
count is the second chunking's count, not a union of both. -/
theorem claim4_reindex_last_write_wins (st : RAGState) (ticker text1 text2 : String)
    (md1 md2 : Option (List (String × PyVal)))
    (hnd : (st.vector_stores.map Prod.fst).Nodup)
    (h1 : 500 ≤ text1.length) (h2 : 500 ≤ text2.length)
    (st2 : RAGState)
    (hst2 : st2 = (index_document (index_document st ticker text1 md1).2 ticker text2 md2).2) :
    (st2.vector_stores.map Prod.fst).count ticker = 1 ∧
    storesLookup st2 ticker = some (Chroma_from_documents (process_document text2
      (assocSet (md2.getD []) ("ticker") (PyVal.str ticker.toUpper)))) ∧
    get_document_stats st2 ticker
      = some { ticker := ticker, chunk_count := (chunkText text2.toList).length } := by
  subst hst2
  have hn1 : ¬ text1.length < 500 := by omega
  have hn2 : ¬ text2.length < 500 := by omega
  simp only [index_document, if_neg hn1, if_neg hn2]
  refine ⟨?_, ?_, ?_⟩
  · exact count_keys_assocSet _ _ _ (nodup_keys_assocSet _ _ _ hnd)
  · simp only [storesLookup]
    exact assocGet_assocSet_same _ _ _
  · simp only [get_document_stats, storesLookup]
    rw [assocGet_assocSet_same]
    simp [collection_count, Chroma_from_documents, process_document]

theorem wText1_length : 500 ≤ wText1.length := by
  have h : wText1.length = 500 := by
    show (List.replicate 500 'a').length = 500
    exact List.length_replicate 500 'a'
  omega

theorem wText2_length : 500 ≤ wText2.length := by
  have h : wText2.length = 700 := by
    show (List.replicate 700 'b').length = 700
    exact List.length_replicate 700 'b'
  omega

theorem claim4_reindex_last_write_wins_witness :
    ((emptyState.vector_stores.map Prod.fst).Nodup ∧
      500 ≤ wText1.length ∧ 500 ≤ wText2.length) ∧
    ((wSt2.vector_stores.map Prod.fst).count wTicker = 1 ∧
     storesLookup wSt2 wTicker = some (Chroma_from_documents (process_document wText2
       (assocSet ((none : Option (List (String × PyVal))).getD []) ("ticker")
         (PyVal.str wTicker.toUpper)))) ∧
     get_document_stats wSt2 wTicker
       = some { ticker := wTicker, chunk_count := (chunkText wText2.toList).length }) :=
  ⟨⟨by simp [emptyState], wText1_length, wText2_length⟩,
   claim4_reindex_last_write_wins emptyState wTicker wText1 wText2 none none
     (by simp [emptyState]) wText1_length wText2_length wSt2 rfl⟩

/-- C9: the `chunk_id` values assigned by `process_document` are exactly
`0, 1, 2, ...` in chunk order (one per produced chunk, strictly
increasing from 0), and the number of chunks, as produced by the
sliding-window splitter of window 600 and overlap 120 that the spec
describes, is within plus or minus 1 of
`ceil((L - 120) / 480)` for a document of length `L`. -/
theorem claim9_chunk_ids_and_count (text : String) (metadata : List (String × PyVal)) :
    ((process_document text metadata).map (fun d => assocGet d.metadata ("chunk_id")))
      = (List.range (chunkText text.toList).length).map (fun i => some (PyVal.int i)) ∧
    ((chunkText text.toList).length : ℤ) ≤ ⌈((text.length : ℚ) - 120) / 480⌉ + 1 ∧
    ⌈((text.length : ℚ) - 120) / 480⌉ - 1 ≤ ((chunkText text.toList).length : ℤ) := by
  have hlen : text.toList.length = text.length := rfl
  refine ⟨?_, ?_, ?_⟩
  · unfold process_document
    rw [List.map_map]
    have hfun : ((fun d => assocGet d.metadata ("chunk_id")) ∘
        (fun ic : Nat × List Char =>
          ({ page_content := String.mk (trimChars ic.2),
             metadata := assocSet (assocSet metadata ("chunk_id") (PyVal.int ic.1))
               ("chunk_length") (PyVal.int ic.2.length) } : Document)))
        = fun ic : Nat × List Char => some (PyVal.int ic.1) := by
      funext ic
      show assocGet (assocSet (assocSet metadata ("chunk_id") (PyVal.int ic.1))
          ("chunk_length") (PyVal.int ic.2.length)) ("chunk_id") = some (PyVal.int ic.1)
      rw [assocGet_assocSet_ne _ _ _ _ (by decide)]
      exact assocGet_assocSet_same _ _ _
    rw [hfun]
    have h := enumFrom_map_fst_eq (fun i => some (PyVal.int i)) 0 (chunkText text.toList)
    simpa [List.enum, List.range_eq_range'] using h
  · rw [chunkText_length, hlen]
    exact (chunkCount_bound text.length).2
  · rw [chunkText_length, hlen]
    exact (chunkCount_bound text.length).1

/-- C10 is false as stated: the claim quantifies over every non-None
metadata dictionary, but the empty dict is non-None yet falsy, so
`metadata = metadata or {}` rebinds it to a fresh dict and the
assignment `metadata["ticker"] = ticker.upper()` runs on that fresh
dict, never on the caller-owned object.  After indexing a 500-character
document with a non-None empty caller dict, the caller-visible dict is
still empty with no `ticker` key, not the mutated dict the claim
asserts. -/
theorem claim10_counterexample :
    index_document_callerMeta wTicker wText1 [] = [] ∧
    assocGet (index_document_callerMeta wTicker wText1 []) ("ticker") = none ∧
    index_document_callerMeta wTicker wText1 []
      ≠ assocSet ([] : List (String × PyVal)) ("ticker") (PyVal.str wTicker.toUpper) := by
  have hnot : ¬ wText1.length < 500 := by
    have h := wText1_length
    omega
  have h1 : index_document_callerMeta wTicker wText1 [] = [] := by
    unfold index_document_callerMeta
    rw [if_neg hnot, if_pos rfl]
  refine ⟨h1, ?_, ?_⟩
  · rw [h1]
    rfl
  · rw [h1]
    simp [assocSet]

/-- C10 (amended): for every non-None and non-empty metadata dictionary,
on the indexing path (text of at least 500 characters), `index_document`
mutates the caller-owned dictionary in place by setting its `ticker` key
to the uppercased ticker before chunking (modelled by explicit value
passing: the caller-visible dict after the call,
`index_document_callerMeta`, equals the input dict with the key set);
chunking receives exactly that dictionary, and each chunk extends its
own copy with `chunk_id` and `chunk_length`, so those chunk-level keys
never propagate back to the caller's dictionary.  An empty dictionary is
falsy in `metadata or {}` and is rebound to a fresh dict instead, hence
the non-empty hypothesis. -/
theorem claim10_nonempty_metadata_mutation (st : RAGState) (ticker text : String)
    (md : List (String × PyVal)) (h : 500 ≤ text.length) (hne : md ≠ [])
    (callerAfter : List (String × PyVal))
    (hca : callerAfter = index_document_callerMeta ticker text md) :
    callerAfter = assocSet md ("ticker") (PyVal.str ticker.toUpper) ∧
    index_document st ticker text (some md)
      = (true, RAGState.mk (assocSet st.vector_stores ticker
          (Chroma_from_documents (process_document text callerAfter)))) ∧
    (∀ d ∈ process_document text callerAfter, ∃ i len,
        d.metadata = assocSet (assocSet callerAfter ("chunk_id") (PyVal.int i))
          ("chunk_length") (PyVal.int len)) ∧
    (assocGet md ("chunk_id") = none → assocGet callerAfter ("chunk_id") = none) ∧
    (assocGet md ("chunk_length") = none → assocGet callerAfter ("chunk_length") = none) := by
  subst hca
  have hnot : ¬ text.length < 500 := by omega
  have heq : index_document_callerMeta ticker text md
      = assocSet md ("ticker") (PyVal.str ticker.toUpper) := by
    unfold index_document_callerMeta
    rw [if_neg hnot, if_neg hne]
  rw [heq]
  refine ⟨rfl, ?_, ?_, ?_, ?_⟩
  · simp [index_document, hnot]
  · intro d hd
    simp only [process_document, List.mem_map] at hd
    obtain ⟨ic, hic, rfl⟩ := hd
    exact ⟨ic.1, ic.2.length, rfl⟩
  · intro hnone
    rw [assocGet_assocSet_ne _ _ _ _ (by decide)]
    exact hnone
  · intro hnone
    rw [assocGet_assocSet_ne _ _ _ _ (by decide)]
    exact hnone

theorem claim10_nonempty_metadata_mutation_witness :
    (500 ≤ wText1.length ∧ wMeta ≠ []) ∧
    (wCallerAfter = assocSet wMeta ("ticker") (PyVal.str wTicker.toUpper) ∧
     index_document emptyState wTicker wText1 (some wMeta)
        = (true, RAGState.mk (assocSet emptyState.vector_stores wTicker
            (Chroma_from_documents (process_document wText1 wCallerAfter)))) ∧
     (∀ d ∈ process_document wText1 wCallerAfter, ∃ i len,
         d.metadata = assocSet (assocSet wCallerAfter ("chunk_id") (PyVal.int i))
           ("chunk_length") (PyVal.int len)) ∧
     (assocGet wMeta ("chunk_id") = none → assocGet wCallerAfter ("chunk_id") = none) ∧
     (assocGet wMeta ("chunk_length") = none →
       assocGet wCallerAfter ("chunk_length") = none)) :=
  ⟨⟨wText1_length, by decide⟩,
   claim10_nonempty_metadata_mutation emptyState wTicker wText1 wMeta wText1_length
     (by decide) wCallerAfter rfl⟩

end ESG
